import Mathlib

/-!
Verification development for the batocera-xbox-extras launcher
(src/configgen/generators/cxbxr/cxbxrGenerator.py and
src/configgen/xboxlauncher.py), shallowly embedded in Lean 4.

Filesystem state is modelled explicitly (sets of file and directory
paths); the settings file is modelled at the level of the parsed
document (ordered sections of ordered key/value pairs), together with
the deterministic serialization the config writer produces, so document
equality entails byte identity of the rewritten file.  Process
environments are modelled as finite partial maps from variable names to
values.
-/

/-! ## Path helpers (Python pathlib semantics used by the source)

String manipulation is done on the underlying character lists by
structural recursion, so every definition evaluates on concrete
inputs. -/

/-- Splitting a character list at every slash, keeping empty segments,
as in splitting a path string on the separator. -/
def splitOnSlash : List Char → List (List Char)
  | [] => [[]]
  | c :: rest =>
    if c = '/' then [] :: splitOnSlash rest
    else
      match splitOnSlash rest with
      | [] => [[c]]
      | h :: t => (c :: h) :: t

/-- Lowercasing a string character by character, as in `str.lower`
restricted to ASCII. -/
def lowerStr (s : String) : String :=
  String.mk (s.data.map Char.toLower)

/-- Final component of a slash-separated path, as in pathlib `Path.name`. -/
def pathName (p : String) : String :=
  String.mk ((splitOnSlash p.data).getLastD [])

/-- Extension of the final component including the dot, as in pathlib
`Path.suffix`: the slice from the last dot, provided that dot is neither
the first nor the last character of the name. -/
def pathSuffix (p : String) : String :=
  let cs := (pathName p).data
  match cs.reverse.findIdx? (fun c => c == '.') with
  | none => ""
  | some j =>
    let i := cs.length - 1 - j
    if 0 < i ∧ i < cs.length - 1 then String.mk (cs.drop i) else ""

/-- Final component without its suffix, as in pathlib `Path.stem`. -/
def pathStem (p : String) : String :=
  let cs := (pathName p).data
  String.mk (cs.take (cs.length - (pathSuffix p).data.length))

/-! ## Fixed paths from the source (module-level constants) -/

def XBOX_EXTRA : String := "/userdata/system/xbox-extra"

def BATOCERA_LOGDIR : String := "/userdata/system/logs"

def ISO_EXTRACT_BASE : String := XBOX_EXTRA ++ "/iso-extracts"

def CXBXR_EXE : String := XBOX_EXTRA ++ "/cxbx-r/app/cxbxr-ldr.exe"

def GUI_DEBUG_LOG : String := BATOCERA_LOGDIR ++ "/cxbx-gui-debug.log"

def KRNL_DEBUG_LOG : String := BATOCERA_LOGDIR ++ "/cxbx-kernel-debug.log"

/-! ## Environment maps

Python dictionaries (`os.environ`, `command.env`) are modelled as
partial maps from variable names to values. -/

abbrev EnvMap := String → Option String

/-- Binding a single variable, as in `env[k] = v`. -/
def envSet (e : EnvMap) (k v : String) : EnvMap :=
  fun q => if q = k then some v else e q

/-- Deleting every listed variable, as in the loop
`for variable_name in variables_to_remove: del os.environ[variable_name]`
(the guard `if variable_name in os.environ` only avoids KeyError; the
net effect is that none of the listed names remains bound). -/
def envRemoveAll (e : EnvMap) (ks : List String) : EnvMap :=
  fun q => if ks.contains q then none else e q

/-- Dictionary update as in `base.update(overlay)` followed by reading
the result: the overlay wins wherever it is defined. -/
def envUpdate (base overlay : EnvMap) : EnvMap :=
  fun q =>
    match overlay q with
    | some v => some v
    | none => base q

/-! ## Environment assembly (generate, lines 134-150, and runCommand,
lines 85-87 of xboxlauncher.py) -/

def offloadVars : List String :=
  ["__NV_PRIME_RENDER_OFFLOAD", "__VK_LAYER_NV_optimus", "__GLX_VENDOR_LIBRARY_NAME"]

def VK_ICD_VALUE : String := "/usr/share/vulkan/icd.d/nvidia_icd.x86_64.json"

def VK_LAYER_VALUE : String := "/usr/share/vulkan/explicit_layer.d"

/-- The `environment` dictionary built in generate: the wine runner
environment overlaid with the SDL controller configuration, the HIDAPI
quirk flag and the WINEDEBUG suppression, and, when the nvidia prime
marker file exists, the two Vulkan loader variables. -/
def assembledEnvironment (wineEnv : EnvMap) (sdlConfig : String) (prime : Bool) : EnvMap :=
  let e := envSet (envSet (envSet wineEnv
    "SDL_GAMECONTROLLERCONFIG" sdlConfig)
    "SDL_JOYSTICK_HIDAPI" "0")
    "WINEDEBUG" "-all"
  if prime then
    envSet (envSet e "VK_ICD_FILENAMES" VK_ICD_VALUE) "VK_LAYER_PATH" VK_LAYER_VALUE
  else e

/-- The launcher process environment after generate ran: WINEARCH is
set unconditionally (line 66); when the prime marker exists the three
offload variables are deleted from os.environ (lines 141-145). -/
def osEnvAfterGenerate (osEnv : EnvMap) (prime : Bool) : EnvMap :=
  let e := envSet osEnv "WINEARCH" "win64"
  if prime then envRemoveAll e offloadVars else e

/-- The environment the spawned process receives: runCommand takes a
copy of os.environ and updates it with the command environment
(xboxlauncher.py lines 85-87). -/
def finalCommandEnv (osEnv wineEnv : EnvMap) (sdlConfig : String) (prime : Bool) : EnvMap :=
  envUpdate (osEnvAfterGenerate osEnv prime) (assembledEnvironment wineEnv sdlConfig prime)

/-! ## Settings document model (_configure_settings and
_create_default_settings)

The settings file is parsed by a case-sensitive, interpolation-free
config parser into ordered sections of ordered key/value pairs; the
writer emits the sections and keys back in that order.  A file on disk
is either missing, unparsable, or a parsed document. -/

abbrev SettingsDoc := List (String × List (String × String))

inductive SettingsFile where
  | missing : SettingsFile
  | corrupt : SettingsFile
  | parsed : SettingsDoc → SettingsFile
deriving DecidableEq

inductive ConfigError where
  | parseError : ConfigError
deriving DecidableEq

/-- Lookup of a key in a key/value list, first occurrence. -/
def keyGet (kvs : List (String × String)) (k : String) : Option String :=
  (kvs.find? (fun p => p.1 == k)).map (fun p => p.2)

/-- ConfigParser set on a key/value list: replace the first occurrence
in place, or append when absent. -/
def setKey : List (String × String) → String → String → List (String × String)
  | [], k, v => [(k, v)]
  | (k₀, v₀) :: rest, k, v =>
    if k₀ = k then (k₀, v) :: rest else (k₀, v₀) :: setKey rest k v

/-- Lookup of section s, key k in a document. -/
def sectGet (d : SettingsDoc) (s k : String) : Option String :=
  match d.find? (fun p => p.1 == s) with
  | none => none
  | some p => keyGet p.2 k

/-- Whether the document has a section named s (`config.has_section`). -/
def hasSection (d : SettingsDoc) (s : String) : Bool :=
  d.any (fun p => p.1 == s)

/-- ConfigParser `config.set(s, k, v)`: update the first section named
s in place.  The source only calls this after ensuring the governed
sections exist, so the missing-section case (where ConfigParser would
raise NoSectionError) is never exercised; it is modelled as a no-op. -/
def setKV : SettingsDoc → String → String → String → SettingsDoc
  | [], _, _, _ => []
  | (s₀, kvs) :: rest, s, k, v =>
    if s₀ = s then (s₀, setKey kvs k v) :: rest
    else (s₀, kvs) :: setKV rest s k v

/-- Appending an empty section (`config.add_section`). -/
def addSection (d : SettingsDoc) (s : String) : SettingsDoc :=
  d ++ [(s, [])]

/-- One step of the governed-section loop: add the section when absent. -/
def ensureSection (d : SettingsDoc) (s : String) : SettingsDoc :=
  if hasSection d s then d else addSection d s

def governedSections : List String :=
  ["gui", "core", "video", "audio", "input-general"]

/-- The four section/key pairs governed by the debug rewriting of
_configure_settings; every other section/key pair is unmanaged by the
launcher. -/
def managedKey (s k : String) : Bool :=
  (s == "gui" && (k == "CxbxDebugMode" || k == "CxbxDebugLogFile")) ||
  (s == "core" && (k == "KrnlDebugMode" || k == "KrnlDebugLogFile"))

/-- The loop `for section in [...]: if not has_section: add_section`. -/
def ensureSections (d : SettingsDoc) : SettingsDoc :=
  governedSections.foldl ensureSection d

/-- The debug block of _configure_settings (lines 262-273): both debug
flags and both log paths are written on every call, enabled or not. -/
def applyDebug (d : SettingsDoc) (debug : Bool) : SettingsDoc :=
  if debug then
    setKV (setKV (setKV (setKV d
      "gui" "CxbxDebugMode" "0x1")
      "gui" "CxbxDebugLogFile" GUI_DEBUG_LOG)
      "core" "KrnlDebugMode" "0x1")
      "core" "KrnlDebugLogFile" KRNL_DEBUG_LOG
  else
    setKV (setKV (setKV (setKV d
      "gui" "CxbxDebugMode" "0x0")
      "gui" "CxbxDebugLogFile" "")
      "core" "KrnlDebugMode" "0x0")
      "core" "KrnlDebugLogFile" ""

/-- The parsed form of the default settings template written by
_create_default_settings (lines 282-332). -/
def defaultSettingsDoc : SettingsDoc :=
  [("gui",
    [("CxbxDebugMode", "0x0"), ("CxbxDebugLogFile", ""),
     ("DataStorageToggle", "0x1"), ("DataCustomLocation", ""),
     ("IgnoreInvalidXbeSig", "false"), ("IgnoreInvalidXbeSec", "false"),
     ("ConsoleTypeToggle", "0x0")]),
   ("core",
    [("Revision", "9"), ("FlagsLLE", "0x0"), ("KrnlDebugMode", "0x0"),
     ("KrnlDebugLogFile", ""), ("AllowAdminPrivilege", "false"),
     ("LogLevel", "1"), ("LogPopupTestCase", "false")]),
   ("video",
    [("VideoResolution", ""), ("adapter", "0x0"), ("Direct3DDevice", "0x0"),
     ("VSync", "false"), ("FullScreen", "true"), ("MaintainAspect", "true"),
     ("RenderResolution", "1")]),
   ("audio",
    [("adapter", "00000000 0000 0000 0000 000000000000"), ("PCM", "true"),
     ("XADPCM", "true"), ("UnknownCodec", "true"), ("MuteOnUnfocus", "true")]),
   ("input-general",
    [("MouseAxisRange", "10"), ("MouseWheelRange", "80"),
     ("IgnoreKbMoUnfocus", "true")]),
   ("overlay",
    [("Build Hash", "false"), ("FPS", "false"), ("HLE/LLE Stats", "false"),
     ("Title Name", "false"), ("File Name", "false")]),
   ("hack",
    [("DisablePixelShaders", "false"), ("UseAllCores", "false"),
     ("SkipRdtscPatching", "false")])]

/-- The whole of _configure_settings on the modelled file state.  A
missing file is first populated with the default template (lines
240-242) and then read back; a file that exists but is unparsable makes
`config.read` raise, and the source does not catch the error, so it
surfaces to the caller (modelled from the spec for the parser itself,
which lives outside src/: an unparsable file is a fatal
ConfigParseError).  On success the governed sections are ensured and
the debug keys rewritten, and the resulting document is what the final
`config.write` persists. -/
def configure_settings : SettingsFile → Bool → Except ConfigError SettingsDoc
  | SettingsFile.missing, debug =>
      Except.ok (applyDebug (ensureSections defaultSettingsDoc) debug)
  | SettingsFile.corrupt, _ => Except.error ConfigError.parseError
  | SettingsFile.parsed d, debug =>
      Except.ok (applyDebug (ensureSections d) debug)

/-- Deterministic serialization the config writer produces: sections in
document order, each key as "key = value", a blank line after each
section.  Equal documents therefore serialize to byte-identical file
content. -/
def writeSettings (d : SettingsDoc) : String :=
  String.join (d.map (fun sec =>
    "[" ++ sec.1 ++ "]\n" ++
    String.join (sec.2.map (fun kv => kv.1 ++ " = " ++ kv.2 ++ "\n")) ++ "\n"))

/-! ## Filesystem model and ROM resolution (generate, lines 72-102,
with _get_extract_dir, _extract_iso and _cleanup_extraction)

The filesystem is a set of regular-file paths plus a set of explicitly
created directories; a directory also exists implicitly whenever some
file lives strictly below it, which matches what extraction tools
create on disk.  Python `Path.exists()` is true for files and for
directories alike, which the model mirrors. -/

structure FS where
  files : List String
  dirs : List String
deriving DecidableEq

/-- Whether prefix dir strictly contains path p (p lives below dir). -/
def isUnder (dir p : String) : Bool :=
  ((dir ++ "/").data.isPrefixOf p.data : Bool)

def fileExistsFS (fs : FS) (p : String) : Bool :=
  fs.files.any (fun f => f == p)

def dirExistsFS (fs : FS) (p : String) : Bool :=
  fs.dirs.any (fun d => d == p) || fs.files.any (fun f => isUnder p f)

/-- Python `Path.exists()`: true for a file or a directory. -/
def existsFS (fs : FS) (p : String) : Bool :=
  fileExistsFS fs p || dirExistsFS fs p

/-- `mkdir_if_not_exists`. -/
def mkdirFS (fs : FS) (p : String) : FS :=
  if fs.dirs.contains p then fs else ⟨fs.files, p :: fs.dirs⟩

/-- `shutil.rmtree`: the directory and everything below it disappear. -/
def rmtreeFS (fs : FS) (p : String) : FS :=
  ⟨fs.files.filter (fun f => !(isUnder p f || f == p)),
   fs.dirs.filter (fun d => !(isUnder p d || d == p))⟩

/-- Sanitizing one character of the ISO stem (_get_extract_dir,
line 166). -/
def sanitizeChar (c : Char) : Char :=
  if c.isAlphanum || c = '-' || c = '_' then c else '_'

def safeName (s : String) : String :=
  String.mk (s.data.map sanitizeChar)

def hexDigit (n : Nat) : Char :=
  if n < 10 then Char.ofNat (48 + n) else Char.ofNat (87 + n)

def toHex8 (n : Nat) : String :=
  String.mk ((List.range 8).map (fun i => hexDigit (n / 16 ^ (7 - i) % 16)))

/-- Modelled from the spec: the IdentifierKey hash, a "short
content-independent hash of the full path" giving 8 hex characters.
The source takes the first 8 hex digits of an MD5 digest via the
standard hashlib library, which is not part of this repository; it is
modelled by a deterministic 8-hex-digit digest of the path string. -/
def pathHash8 (s : String) : String :=
  toHex8 (s.data.foldl (fun a c => (a * 131 + c.toNat) % 4294967296) 7)

/-- The deterministic extraction directory for an ISO
(_get_extract_dir, lines 163-170): sanitized stem, underscore, 8-digit
hash, under the fixed scratch root. -/
def getExtractDir (rom : String) : String :=
  ISO_EXTRACT_BASE ++ "/" ++ safeName (pathStem rom) ++ "_" ++ pathHash8 rom

/-- Modelled from the spec for the external extract-xiso tool invoked
by _extract_iso: on success the contents of the image (a tree of
relative file paths, supplied here as a function of the ROM path) are
placed in the output directory.  The surrounding source behaviour is
kept: _get_extract_dir creates the scratch root and _extract_iso
creates the output directory before running the tool. -/
def extractionFS (fs : FS) (isoContents : String → List String) (rom : String) : FS :=
  let fs₁ := mkdirFS (mkdirFS fs ISO_EXTRACT_BASE) (getExtractDir rom)
  ⟨fs₁.files ++ (isoContents rom).map (fun rel => getExtractDir rom ++ "/" ++ rel),
   fs₁.dirs⟩

/-- The top-level candidate path `extract_dir / 'default.xbe'`
(line 83). -/
def topXbePath (rom : String) : String :=
  getExtractDir rom ++ "/default.xbe"

/-- The recursive search of lines 85-88: the first regular file below
the extraction directory whose name lowercases to default.xbe. -/
def findXbeRec (fs : FS) (dir : String) : Option String :=
  fs.files.find? (fun f => isUnder dir f && lowerStr (pathName f) == "default.xbe")

inductive GenError where
  | unsupportedFormat : GenError
  | payloadNotFound : GenError
  | xbeNotFound : GenError
deriving DecidableEq

structure ResolvedPayload where
  xbePath : String
  extractDir : Option String
deriving DecidableEq

/-- The ROM-resolution portion of generate (lines 72-102): extension
dispatch on the lowercased suffix; for an ISO, extraction into the
deterministic directory, the top-level `exists()` probe (true for a
file or a directory at that exact path), then the case-insensitive
recursive file search, with cleanup of the extraction directory before
the payload-not-found error; for an XBE, the path is used as is; any
other extension is rejected before any filesystem effect.  The final
`xbe_path.exists()` validation of lines 100-102 is included (for the
ISO branches it is always true by construction).  Returns the outcome
together with the resulting filesystem. -/
def resolveRom (fs : FS) (isoContents : String → List String) (rom : String) :
    Except GenError ResolvedPayload × FS :=
  if lowerStr (pathSuffix rom) = ".iso" then
    if existsFS (extractionFS fs isoContents rom) (topXbePath rom) then
      (Except.ok ⟨topXbePath rom, some (getExtractDir rom)⟩, extractionFS fs isoContents rom)
    else
      match findXbeRec (extractionFS fs isoContents rom) (getExtractDir rom) with
      | some f =>
          (Except.ok ⟨f, some (getExtractDir rom)⟩, extractionFS fs isoContents rom)
      | none =>
          (Except.error GenError.payloadNotFound,
           rmtreeFS (extractionFS fs isoContents rom) (getExtractDir rom))
  else if lowerStr (pathSuffix rom) = ".xbe" then
    if existsFS fs rom then (Except.ok ⟨rom, none⟩, fs)
    else (Except.error GenError.xbeNotFound, fs)
  else
    (Except.error GenError.unsupportedFormat, fs)

/-! ## Command synthesis (generate, lines 104-131) -/

/-- Path translation for the wine runtime: forward slashes become
backslashes (line 105). -/
def toWinePath (p : String) : String :=
  String.mk (p.data.map (fun c => if c = '/' then '\\' else c))

/-- The synthesized argument vector: wine runner executable, loader
executable, the /load flag with the Z-drive XBE path, and, only when
debug is enabled, the /dm and /df flags (lines 110-130). -/
def buildArgv (wineExe xbePath : String) (debug : Bool) : List String :=
  [wineExe, CXBXR_EXE, "/load", "Z:" ++ toWinePath xbePath] ++
    (if debug then ["/dm", "1", "/df", "Z:" ++ toWinePath KRNL_DEBUG_LOG] else [])

/-! ## Cleanup wrapper (_wrap_with_cleanup, lines 209-235) -/

structure CommandM where
  array : List String
  env : EnvMap

def WRAPPER_SCRIPT_PATH : String := XBOX_EXTRA ++ "/cxbx-wrapper.sh"

/-- The generated wrapper script text (lines 213-226). -/
def wrapperScriptContent (arr : List String) (dir : String) : String :=
  "#!/bin/bash\n" ++
  "# Auto-generated wrapper for Cxbx-Reloaded with ISO cleanup\n\n" ++
  "# Run the emulator\n" ++
  String.intercalate " " arr ++ "\n" ++
  "EXIT_CODE=$?\n\n" ++
  "# Cleanup extracted ISO\n" ++
  "if [ -d \"" ++ dir ++ "\" ]; then\n" ++
  "    rm -rf \"" ++ dir ++ "\" 2>/dev/null || true\n" ++
  "fi\n\n" ++
  "exit $EXIT_CODE\n"

structure WrapResult where
  scriptWrite : Option (String × String)
  command : CommandM

/-- _wrap_with_cleanup: when an extraction directory was recorded, the
wrapper script is written (write_text overwrites any previous content
at that fixed path) and the command becomes bash running that script
with the original environment; otherwise the command passes through
unchanged. -/
def wrapWithCleanup (extractDir : Option String) (cmd : CommandM) : WrapResult :=
  match extractDir with
  | some dir =>
      ⟨some (WRAPPER_SCRIPT_PATH, wrapperScriptContent cmd.array dir),
       ⟨["/bin/bash", WRAPPER_SCRIPT_PATH], cmd.env⟩⟩
  | none => ⟨none, cmd⟩

/-! ## Order of effects in generate (lines 68-97)

generate calls _configure_settings (line 70) and only then performs the
ROM extension dispatch and extraction (lines 72 onward); the combined
state records the settings file and the filesystem. -/

inductive LaunchError where
  | configParse : LaunchError
  | resolve : GenError → LaunchError
deriving DecidableEq

structure GenState where
  settings : SettingsFile
  fs : FS
deriving DecidableEq

/-- The settings-then-resolution sequencing of generate: the settings
file is configured first; only if that succeeds is the ROM resolved. -/
def generateModel (st : GenState) (isoContents : String → List String)
    (rom : String) (debug : Bool) :
    Except LaunchError ResolvedPayload × GenState :=
  match configure_settings st.settings debug with
  | Except.error _ => (Except.error LaunchError.configParse, st)
  | Except.ok doc =>
    match resolveRom st.fs isoContents rom with
    | (Except.error e, fs₂) =>
        (Except.error (LaunchError.resolve e), ⟨SettingsFile.parsed doc, fs₂⟩)
    | (Except.ok r, fs₂) =>
        (Except.ok r, ⟨SettingsFile.parsed doc, fs₂⟩)

/-! ## Concrete inputs used by witnesses and counterexamples -/

/-- Empty filesystem. -/
def fsEmpty : FS := ⟨[], []⟩

/-- An inherited launcher environment in which all three offload
variables are present. -/
def osEnvEx : EnvMap :=
  envSet (envSet (envSet (fun _ => none)
    "__NV_PRIME_RENDER_OFFLOAD" "1")
    "__VK_LAYER_NV_optimus" "1")
    "__GLX_VENDOR_LIBRARY_NAME" "nvidia"

/-- A wine-runner environment binding nothing. -/
def wineEnvEx : EnvMap := fun _ => none

/-- A settings document holding one unmanaged section and key. -/
def docCustom : SettingsDoc := [("custom", [("Foo", "bar")])]

/-- Image content with a single file and no default executable. -/
def isoNoXbe : String → List String := fun _ => ["game/data.bin"]

/-- Image content whose only entry lives below a directory named
default.xbe, so the tree holds no file of that name. -/
def isoDirXbe : String → List String := fun _ => ["default.xbe/data.bin"]

/-- Image content with the default executable at a nested position. -/
def isoNestedXbe : String → List String := fun _ => ["Game/Default.XBE"]

def romHalo : String := "/roms/halo.iso"

def romXbe : String := "/roms/game.xbe"

def romBin : String := "/roms/game.bin"

/-! ## Lemmas on the settings-document operations -/

lemma keyGet_setKey_self (kvs : List (String × String)) (k v : String) :
    keyGet (setKey kvs k v) k = some v := by
  induction kvs with
  | nil => simp [setKey, keyGet]
  | cons a rest ih =>
    obtain ⟨k₀, v₀⟩ := a
    by_cases h : k₀ = k
    · subst h; simp [setKey, keyGet]
    · simp [setKey, keyGet, h] at ih ⊢
      simpa [keyGet] using ih

lemma keyGet_setKey_ne (kvs : List (String × String)) (k v k₁ : String) (h : k₁ ≠ k) :
    keyGet (setKey kvs k v) k₁ = keyGet kvs k₁ := by
  induction kvs with
  | nil =>
    simp only [setKey, keyGet]
    rw [List.find?_cons_of_neg _ (by simp [Ne.symm h])]
  | cons a rest ih =>
    obtain ⟨k₀, v₀⟩ := a
    by_cases h₀ : k₀ = k
    · subst h₀
      have hs : setKey ((k₀, v₀) :: rest) k₀ v = (k₀, v) :: rest := by
        simp [setKey]
      rw [hs]
      simp only [keyGet]
      rw [List.find?_cons_of_neg _ (by simp [Ne.symm h]),
          List.find?_cons_of_neg _ (by simp [Ne.symm h])]
    · by_cases h₁ : k₀ = k₁
      · subst h₁
        simp only [setKey, if_neg h₀, keyGet]
        rw [List.find?_cons_of_pos _ (by simp), List.find?_cons_of_pos _ (by simp)]
      · simp only [setKey, if_neg h₀, keyGet]
        rw [List.find?_cons_of_neg _ (by simp [h₁]), List.find?_cons_of_neg _ (by simp [h₁])]
        exact ih

lemma setKey_self (kvs : List (String × String)) (k v : String)
    (h : keyGet kvs k = some v) : setKey kvs k v = kvs := by
  induction kvs with
  | nil => simp [keyGet] at h
  | cons a rest ih =>
    obtain ⟨k₀, v₀⟩ := a
    by_cases h₀ : k₀ = k
    · subst h₀
      simp [keyGet] at h
      simp [setKey, h]
    · simp [keyGet, h₀] at h
      simp [setKey, h₀]
      exact ih (by simpa [keyGet] using h)

lemma sectGet_setKV_self (d : SettingsDoc) (s k v : String)
    (h : hasSection d s = true) : sectGet (setKV d s k v) s k = some v := by
  induction d with
  | nil => simp [hasSection] at h
  | cons a rest ih =>
    obtain ⟨s₀, kvs⟩ := a
    by_cases h₀ : s₀ = s
    · subst h₀; simp [setKV, sectGet, keyGet_setKey_self]
    · simp [hasSection, h₀] at h
      simp [setKV, sectGet, h₀]
      simpa [sectGet] using ih (by simpa [hasSection] using h)

lemma sectGet_setKV_ne_sect (d : SettingsDoc) (s k v s₁ k₁ : String) (h : s₁ ≠ s) :
    sectGet (setKV d s k v) s₁ k₁ = sectGet d s₁ k₁ := by
  induction d with
  | nil => simp [setKV]
  | cons a rest ih =>
    obtain ⟨s₀, kvs⟩ := a
    by_cases h₀ : s₀ = s
    · subst h₀
      simp [setKV, sectGet, fun hh : s₀ = s₁ => h (hh.symm), Ne.symm h]
    · by_cases h₁ : s₀ = s₁
      · subst h₁; simp [setKV, sectGet, h₀]
      · simp [setKV, sectGet, h₀, h₁]
        simpa [sectGet] using ih

lemma sectGet_setKV_ne_key (d : SettingsDoc) (s k v k₁ : String) (h : k₁ ≠ k) :
    sectGet (setKV d s k v) s k₁ = sectGet d s k₁ := by
  induction d with
  | nil => simp [setKV]
  | cons a rest ih =>
    obtain ⟨s₀, kvs⟩ := a
    by_cases h₀ : s₀ = s
    · subst h₀
      simp [setKV, sectGet, keyGet_setKey_ne kvs k v k₁ h]
    · simp [setKV, sectGet, h₀]
      simpa [sectGet] using ih

lemma setKV_self (d : SettingsDoc) (s k v : String)
    (h : sectGet d s k = some v) : setKV d s k v = d := by
  induction d with
  | nil => simp [setKV]
  | cons a rest ih =>
    obtain ⟨s₀, kvs⟩ := a
    by_cases h₀ : s₀ = s
    · subst h₀
      simp [sectGet] at h
      simp [setKV, setKey_self kvs k v h]
    · simp [sectGet, h₀] at h
      simp [setKV, h₀]
      exact ih (by simpa [sectGet] using h)

lemma hasSection_setKV (d : SettingsDoc) (s k v s₁ : String) :
    hasSection (setKV d s k v) s₁ = hasSection d s₁ := by
  induction d with
  | nil => simp [setKV]
  | cons a rest ih =>
    obtain ⟨s₀, kvs⟩ := a
    by_cases h₀ : s₀ = s
    · subst h₀; simp [setKV, hasSection]
    · simp only [setKV, if_neg h₀, hasSection, List.any_cons]
      have ih₁ : (List.any (setKV rest s k v) fun p => p.1 == s₁)
          = rest.any fun p => p.1 == s₁ := ih
      rw [ih₁]

lemma sectGet_addSection (d : SettingsDoc) (s₂ s k : String) :
    sectGet (addSection d s₂) s k = sectGet d s k := by
  induction d with
  | nil =>
    by_cases h : s₂ = s
    · subst h; simp [addSection, sectGet, keyGet]
    · simp [addSection, sectGet, h]
  | cons a rest ih =>
    obtain ⟨s₀, kvs⟩ := a
    by_cases h₀ : s₀ = s
    · subst h₀; simp [addSection, sectGet]
    · simp only [addSection, List.cons_append, sectGet]
      rw [List.find?_cons_of_neg _ (by simp [h₀]), List.find?_cons_of_neg _ (by simp [h₀])]
      simpa [addSection, sectGet] using ih

lemma sectGet_ensureSection (d : SettingsDoc) (s₂ s k : String) :
    sectGet (ensureSection d s₂) s k = sectGet d s k := by
  unfold ensureSection
  by_cases h : hasSection d s₂ = true
  · simp [h]
  · simp only [Bool.not_eq_true] at h
    simp [h, sectGet_addSection]

lemma sectGet_ensureSections (d : SettingsDoc) (s k : String) :
    sectGet (ensureSections d) s k = sectGet d s k := by
  have general : ∀ (names : List String) (d₀ : SettingsDoc),
      sectGet (names.foldl ensureSection d₀) s k = sectGet d₀ s k := by
    intro names
    induction names with
    | nil => intro d₀; rfl
    | cons n rest ih =>
      intro d₀
      rw [List.foldl_cons, ih, sectGet_ensureSection]
  exact general governedSections d

lemma hasSection_addSection (d : SettingsDoc) (s₂ s : String) :
    hasSection (addSection d s₂) s = (hasSection d s || (s₂ == s)) := by
  simp [addSection, hasSection, List.any_append]

lemma hasSection_ensureSection_self (d : SettingsDoc) (s : String) :
    hasSection (ensureSection d s) s = true := by
  unfold ensureSection
  by_cases h : hasSection d s = true
  · simp [h]
  · simp only [Bool.not_eq_true] at h
    simp [h, hasSection_addSection]

lemma hasSection_ensureSection_mono (d : SettingsDoc) (s s₁ : String)
    (h : hasSection d s₁ = true) : hasSection (ensureSection d s) s₁ = true := by
  unfold ensureSection
  by_cases h₂ : hasSection d s = true
  · simp [h₂, h]
  · simp only [Bool.not_eq_true] at h₂
    simp [h₂, hasSection_addSection, h]

lemma hasSection_foldl_mono (names : List String) (d : SettingsDoc) (s₁ : String)
    (h : hasSection d s₁ = true) :
    hasSection (names.foldl ensureSection d) s₁ = true := by
  induction names generalizing d with
  | nil => exact h
  | cons n rest ih =>
    rw [List.foldl_cons]
    exact ih _ (hasSection_ensureSection_mono d n s₁ h)

lemma hasSection_foldl_mem (names : List String) (s₁ : String) (h : s₁ ∈ names) :
    ∀ d : SettingsDoc, hasSection (names.foldl ensureSection d) s₁ = true := by
  induction names with
  | nil => cases h
  | cons n rest ih =>
    intro d
    rw [List.foldl_cons]
    rcases List.mem_cons.mp h with h₁ | h₁
    · subst h₁
      exact hasSection_foldl_mono rest _ s₁ (hasSection_ensureSection_self d s₁)
    · exact ih h₁ _

lemma hasSection_ensureSections_mem (d : SettingsDoc) (s : String)
    (h : s ∈ governedSections) : hasSection (ensureSections d) s = true :=
  hasSection_foldl_mem governedSections s h d

lemma ensureSection_id (d : SettingsDoc) (s : String) (h : hasSection d s = true) :
    ensureSection d s = d := by
  simp [ensureSection, h]

lemma foldl_ensure_id (names : List String) (d : SettingsDoc)
    (h : ∀ s ∈ names, hasSection d s = true) :
    names.foldl ensureSection d = d := by
  induction names with
  | nil => rfl
  | cons n rest ih =>
    rw [List.foldl_cons, ensureSection_id d n (h n (List.mem_cons_self n rest))]
    exact ih (fun s hs => h s (List.mem_cons_of_mem n hs))

lemma hasSection_applyDebug (d : SettingsDoc) (b : Bool) (s : String) :
    hasSection (applyDebug d b) s = hasSection d s := by
  cases b <;> simp [applyDebug, hasSection_setKV]

lemma applyDebug_true_eq (d : SettingsDoc) :
    applyDebug d true
      = setKV (setKV (setKV (setKV d
          "gui" "CxbxDebugMode" "0x1")
          "gui" "CxbxDebugLogFile" GUI_DEBUG_LOG)
          "core" "KrnlDebugMode" "0x1")
          "core" "KrnlDebugLogFile" KRNL_DEBUG_LOG := rfl

lemma applyDebug_false_eq (d : SettingsDoc) :
    applyDebug d false
      = setKV (setKV (setKV (setKV d
          "gui" "CxbxDebugMode" "0x0")
          "gui" "CxbxDebugLogFile" "")
          "core" "KrnlDebugMode" "0x0")
          "core" "KrnlDebugLogFile" "" := rfl

lemma applyDebug_sectGet_true (d : SettingsDoc)
    (hg : hasSection d "gui" = true) (hc : hasSection d "core" = true) :
    sectGet (applyDebug d true) "gui" "CxbxDebugMode" = some "0x1" ∧
    sectGet (applyDebug d true) "gui" "CxbxDebugLogFile" = some GUI_DEBUG_LOG ∧
    sectGet (applyDebug d true) "core" "KrnlDebugMode" = some "0x1" ∧
    sectGet (applyDebug d true) "core" "KrnlDebugLogFile" = some KRNL_DEBUG_LOG := by
  rw [applyDebug_true_eq]
  refine ⟨?_, ?_, ?_, ?_⟩
  · rw [sectGet_setKV_ne_sect _ _ _ _ _ _ (by decide),
        sectGet_setKV_ne_sect _ _ _ _ _ _ (by decide),
        sectGet_setKV_ne_key _ _ _ _ _ (by decide)]
    exact sectGet_setKV_self d _ _ _ hg
  · rw [sectGet_setKV_ne_sect _ _ _ _ _ _ (by decide),
        sectGet_setKV_ne_sect _ _ _ _ _ _ (by decide)]
    exact sectGet_setKV_self _ _ _ _ (by rw [hasSection_setKV]; exact hg)
  · rw [sectGet_setKV_ne_key _ _ _ _ _ (by decide)]
    exact sectGet_setKV_self _ _ _ _ (by rw [hasSection_setKV, hasSection_setKV]; exact hc)
  · exact sectGet_setKV_self _ _ _ _
      (by rw [hasSection_setKV, hasSection_setKV, hasSection_setKV]; exact hc)

lemma applyDebug_sectGet_false (d : SettingsDoc)
    (hg : hasSection d "gui" = true) (hc : hasSection d "core" = true) :
    sectGet (applyDebug d false) "gui" "CxbxDebugMode" = some "0x0" ∧
    sectGet (applyDebug d false) "gui" "CxbxDebugLogFile" = some "" ∧
    sectGet (applyDebug d false) "core" "KrnlDebugMode" = some "0x0" ∧
    sectGet (applyDebug d false) "core" "KrnlDebugLogFile" = some "" := by
  rw [applyDebug_false_eq]
  refine ⟨?_, ?_, ?_, ?_⟩
  · rw [sectGet_setKV_ne_sect _ _ _ _ _ _ (by decide),
        sectGet_setKV_ne_sect _ _ _ _ _ _ (by decide),
        sectGet_setKV_ne_key _ _ _ _ _ (by decide)]
    exact sectGet_setKV_self d _ _ _ hg
  · rw [sectGet_setKV_ne_sect _ _ _ _ _ _ (by decide),
        sectGet_setKV_ne_sect _ _ _ _ _ _ (by decide)]
    exact sectGet_setKV_self _ _ _ _ (by rw [hasSection_setKV]; exact hg)
  · rw [sectGet_setKV_ne_key _ _ _ _ _ (by decide)]
    exact sectGet_setKV_self _ _ _ _ (by rw [hasSection_setKV, hasSection_setKV]; exact hc)
  · exact sectGet_setKV_self _ _ _ _
      (by rw [hasSection_setKV, hasSection_setKV, hasSection_setKV]; exact hc)

lemma applyDebug_idem (d : SettingsDoc) (b : Bool)
    (hg : hasSection d "gui" = true) (hc : hasSection d "core" = true) :
    applyDebug (applyDebug d b) b = applyDebug d b := by
  cases b
  · obtain ⟨g₁, g₂, g₃, g₄⟩ := applyDebug_sectGet_false d hg hc
    conv_lhs => rw [applyDebug_false_eq (applyDebug d false)]
    rw [setKV_self _ _ _ _ g₁, setKV_self _ _ _ _ g₂, setKV_self _ _ _ _ g₃,
        setKV_self _ _ _ _ g₄]
  · obtain ⟨g₁, g₂, g₃, g₄⟩ := applyDebug_sectGet_true d hg hc
    conv_lhs => rw [applyDebug_true_eq (applyDebug d true)]
    rw [setKV_self _ _ _ _ g₁, setKV_self _ _ _ _ g₂, setKV_self _ _ _ _ g₃,
        setKV_self _ _ _ _ g₄]

lemma configure_stable (d₀ : SettingsDoc) (b : Bool) :
    applyDebug (ensureSections (applyDebug (ensureSections d₀) b)) b
      = applyDebug (ensureSections d₀) b := by
  have hg : hasSection (ensureSections d₀) "gui" = true :=
    hasSection_ensureSections_mem d₀ "gui" (by decide)
  have hc : hasSection (ensureSections d₀) "core" = true :=
    hasSection_ensureSections_mem d₀ "core" (by decide)
  have h₅ : ∀ s ∈ governedSections,
      hasSection (applyDebug (ensureSections d₀) b) s = true := by
    intro s hs
    rw [hasSection_applyDebug]
    exact hasSection_ensureSections_mem d₀ s hs
  rw [show ensureSections (applyDebug (ensureSections d₀) b)
        = applyDebug (ensureSections d₀) b from foldl_ensure_id _ _ h₅]
  exact applyDebug_idem _ b hg hc

/-! ## Lemmas on the filesystem model -/

lemma any_filter_eq_false (l : List String) (r q : String → Bool)
    (h : ∀ x, r x = true → q x = false) : (l.filter r).any q = false := by
  induction l with
  | nil => rfl
  | cons a t ih =>
    by_cases ha : r a = true
    · rw [List.filter_cons_of_pos ha, List.any_cons, h a ha, ih]
      rfl
    · rw [List.filter_cons_of_neg (by simp [ha])]
      exact ih

lemma existsFS_rmtree_self (fs : FS) (p : String) :
    existsFS (rmtreeFS fs p) p = false := by
  have hfile : ∀ x, (!(isUnder p x || x == p)) = true → (x == p) = false := by
    intro x hx
    simp only [Bool.not_eq_true', Bool.or_eq_false_iff] at hx
    exact hx.2
  have hunder : ∀ x, (!(isUnder p x || x == p)) = true → isUnder p x = false := by
    intro x hx
    simp only [Bool.not_eq_true', Bool.or_eq_false_iff] at hx
    exact hx.1
  simp only [existsFS, fileExistsFS, dirExistsFS, rmtreeFS]
  rw [any_filter_eq_false _ _ _ hfile, any_filter_eq_false _ _ _ hfile,
      any_filter_eq_false _ _ _ hunder]
  rfl

/-! ## Lemmas on command synthesis -/

lemma zcolon_ne_dm (t : String) : ("Z:" ++ t) ≠ "/dm" := by
  obtain ⟨cs⟩ := t
  intro h
  have h₂ : ('Z' :: ':' :: cs) = ['/', 'd', 'm'] := congrArg String.data h
  simp at h₂

lemma zcolon_ne_df (t : String) : ("Z:" ++ t) ≠ "/df" := by
  obtain ⟨cs⟩ := t
  intro h
  have h₂ : ('Z' :: ':' :: cs) = ['/', 'd', 'f'] := congrArg String.data h
  simp at h₂

/-! ## Lemmas on environment maps -/

lemma envUpdate_of_none (base overlay : EnvMap) (k : String)
    (h : overlay k = none) : envUpdate base overlay k = base k := by
  unfold envUpdate
  rw [h]

lemma envUpdate_of_some (base overlay : EnvMap) (k v : String)
    (h : overlay k = some v) : envUpdate base overlay k = some v := by
  unfold envUpdate
  rw [h]

/-! ## Claim theorems -/

/-- Claim C1: when the host marker file /var/tmp/nvidia.prime exists,
the environment of the spawned command lacks the three offload
variables (even when they were present in the inherited base
environment, which is universally quantified here and may bind them),
and binds VK_ICD_FILENAMES to the vendor driver manifest path and
VK_LAYER_PATH to the validation-layer path.  The wine-runner
environment is an out-of-scope collaborator assumed not to bind the
three offload variables itself. -/
theorem c1_prime_environment (osEnv wineEnv : EnvMap) (sdlConfig : String)
    (h₁ : wineEnv "__NV_PRIME_RENDER_OFFLOAD" = none)
    (h₂ : wineEnv "__VK_LAYER_NV_optimus" = none)
    (h₃ : wineEnv "__GLX_VENDOR_LIBRARY_NAME" = none) :
    finalCommandEnv osEnv wineEnv sdlConfig true "__NV_PRIME_RENDER_OFFLOAD" = none ∧
    finalCommandEnv osEnv wineEnv sdlConfig true "__VK_LAYER_NV_optimus" = none ∧
    finalCommandEnv osEnv wineEnv sdlConfig true "__GLX_VENDOR_LIBRARY_NAME" = none ∧
    finalCommandEnv osEnv wineEnv sdlConfig true "VK_ICD_FILENAMES" = some VK_ICD_VALUE ∧
    finalCommandEnv osEnv wineEnv sdlConfig true "VK_LAYER_PATH" = some VK_LAYER_VALUE := by
  refine ⟨?_, ?_, ?_, ?_, ?_⟩
  · exact (envUpdate_of_none _ _ _ h₁).trans rfl
  · exact (envUpdate_of_none _ _ _ h₂).trans rfl
  · exact (envUpdate_of_none _ _ _ h₃).trans rfl
  · exact envUpdate_of_some _ _ _ _ rfl
  · exact envUpdate_of_some _ _ _ _ rfl

/-- Witness for C1 at a concrete inherited environment that binds all
three offload variables. -/
theorem c1_prime_environment_witness :
    osEnvEx "__NV_PRIME_RENDER_OFFLOAD" = some "1" ∧
    wineEnvEx "__NV_PRIME_RENDER_OFFLOAD" = none ∧
    (finalCommandEnv osEnvEx wineEnvEx "cfg" true "__NV_PRIME_RENDER_OFFLOAD" = none ∧
     finalCommandEnv osEnvEx wineEnvEx "cfg" true "__VK_LAYER_NV_optimus" = none ∧
     finalCommandEnv osEnvEx wineEnvEx "cfg" true "__GLX_VENDOR_LIBRARY_NAME" = none ∧
     finalCommandEnv osEnvEx wineEnvEx "cfg" true "VK_ICD_FILENAMES" = some VK_ICD_VALUE ∧
     finalCommandEnv osEnvEx wineEnvEx "cfg" true "VK_LAYER_PATH" = some VK_LAYER_VALUE) :=
  ⟨rfl, rfl, c1_prime_environment osEnvEx wineEnvEx "cfg" rfl rfl rfl⟩

/-- Claim C2 counterexample: at a concrete launch with an unsupported
ROM extension, resolution fails, yet the settings file has already been
mutated by that launch, because generate configures the settings before
the ROM extension dispatch. -/
theorem c2_counterexample :
    (generateModel ⟨SettingsFile.parsed [], fsEmpty⟩ isoNoXbe romBin false).1
        = Except.error (LaunchError.resolve GenError.unsupportedFormat) ∧
    (generateModel ⟨SettingsFile.parsed [], fsEmpty⟩ isoNoXbe romBin false).2.settings
        ≠ SettingsFile.parsed [] :=
  ⟨rfl, by decide⟩

/-- Claim C2 (amended): in every launch the Settings Store Merger runs
before the ROM Resolver: the final settings state is exactly the
configure result regardless of the resolution outcome (so when
resolution fails the settings file has already been rewritten by that
launch), and the filesystem reflects resolution effects only when
settings configuration succeeded. -/
theorem c2_settings_before_resolution (st : GenState)
    (isoContents : String → List String) (rom : String) (debug : Bool) :
    (generateModel st isoContents rom debug).2.settings
      = (match configure_settings st.settings debug with
         | Except.ok d => SettingsFile.parsed d
         | Except.error _ => st.settings) ∧
    (generateModel st isoContents rom debug).2.fs
      = (match configure_settings st.settings debug with
         | Except.ok _ => (resolveRom st.fs isoContents rom).2
         | Except.error _ => st.fs) := by
  unfold generateModel
  cases hc : configure_settings st.settings debug with
  | error e => exact ⟨rfl, rfl⟩
  | ok d =>
    cases hr : resolveRom st.fs isoContents rom with
    | mk r fs₂ =>
      cases r with
      | error e => simp [hr]
      | ok pl => simp [hr]

/-- Claim C3: a full configure cycle preserves every section/key pair
not governed by the launcher (the debug keys of the gui and core
sections), with its value intact. -/
theorem c3_unmanaged_preserved (d : SettingsDoc) (debug : Bool) (doc : SettingsDoc)
    (s k v : String)
    (h : configure_settings (SettingsFile.parsed d) debug = Except.ok doc)
    (hm : managedKey s k = false)
    (hv : sectGet d s k = some v) :
    sectGet doc s k = some v := by
  have hd : doc = applyDebug (ensureSections d) debug := by
    simpa [configure_settings] using h.symm
  subst hd
  have step : ∀ (X : SettingsDoc) (s₂ k₂ v₂ : String),
      s ≠ s₂ ∨ k ≠ k₂ → sectGet (setKV X s₂ k₂ v₂) s k = sectGet X s k := by
    intro X s₂ k₂ v₂ hne
    rcases hne with hne | hne
    · exact sectGet_setKV_ne_sect X s₂ k₂ v₂ s k hne
    · by_cases hS : s = s₂
      · subst hS
        exact sectGet_setKV_ne_key X s k₂ v₂ k hne
      · exact sectGet_setKV_ne_sect X s₂ k₂ v₂ s k hS
  have hgui : s = "gui" → k ≠ "CxbxDebugMode" ∧ k ≠ "CxbxDebugLogFile" := by
    intro hs
    subst hs
    simpa [managedKey] using hm
  have hcore : s = "core" → k ≠ "KrnlDebugMode" ∧ k ≠ "KrnlDebugLogFile" := by
    intro hs
    subst hs
    simpa [managedKey] using hm
  have n₁ : s ≠ "gui" ∨ k ≠ "CxbxDebugMode" := by
    by_cases hs : s = "gui"
    · exact Or.inr (hgui hs).1
    · exact Or.inl hs
  have n₂ : s ≠ "gui" ∨ k ≠ "CxbxDebugLogFile" := by
    by_cases hs : s = "gui"
    · exact Or.inr (hgui hs).2
    · exact Or.inl hs
  have n₃ : s ≠ "core" ∨ k ≠ "KrnlDebugMode" := by
    by_cases hs : s = "core"
    · exact Or.inr (hcore hs).1
    · exact Or.inl hs
  have n₄ : s ≠ "core" ∨ k ≠ "KrnlDebugLogFile" := by
    by_cases hs : s = "core"
    · exact Or.inr (hcore hs).2
    · exact Or.inl hs
  cases debug
  · rw [applyDebug_false_eq, step _ _ _ _ n₄, step _ _ _ _ n₃, step _ _ _ _ n₂,
        step _ _ _ _ n₁, sectGet_ensureSections]
    exact hv
  · rw [applyDebug_true_eq, step _ _ _ _ n₄, step _ _ _ _ n₃, step _ _ _ _ n₂,
        step _ _ _ _ n₁, sectGet_ensureSections]
    exact hv

/-- Witness for C3 on a settings document holding one unmanaged
section and key. -/
theorem c3_unmanaged_preserved_witness :
    managedKey "custom" "Foo" = false ∧
    sectGet (applyDebug (ensureSections docCustom) false) "custom" "Foo" = some "bar" :=
  ⟨by decide,
   c3_unmanaged_preserved docCustom false _ "custom" "Foo" "bar" rfl (by decide) rfl⟩

/-- Claim C4: configure is idempotent: whenever a first call rewrites
the settings file to document doc₁, a second call on that file state
yields the same document again, hence (writeSettings being a
deterministic serialization) byte-identical file content. -/
theorem c4_configure_idempotent (s : SettingsFile) (debug : Bool) (doc₁ : SettingsDoc)
    (h : configure_settings s debug = Except.ok doc₁) :
    configure_settings (SettingsFile.parsed doc₁) debug = Except.ok doc₁ ∧
    Except.map writeSettings (configure_settings (SettingsFile.parsed doc₁) debug)
      = Except.ok (writeSettings doc₁) := by
  have key : configure_settings (SettingsFile.parsed doc₁) debug = Except.ok doc₁ := by
    cases s with
    | corrupt => simp [configure_settings] at h
    | missing =>
      have hd : doc₁ = applyDebug (ensureSections defaultSettingsDoc) debug := by
        simpa [configure_settings] using h.symm
      subst hd
      simp [configure_settings, configure_stable]
    | parsed d =>
      have hd : doc₁ = applyDebug (ensureSections d) debug := by
        simpa [configure_settings] using h.symm
      subst hd
      simp [configure_settings, configure_stable]
  refine ⟨key, ?_⟩
  rw [key]
  rfl

/-- Witness for C4: the first configure of a missing file, then a
second configure of its output. -/
theorem c4_configure_idempotent_witness :
    configure_settings SettingsFile.missing false
        = Except.ok (applyDebug (ensureSections defaultSettingsDoc) false) ∧
    configure_settings
        (SettingsFile.parsed (applyDebug (ensureSections defaultSettingsDoc) false)) false
      = Except.ok (applyDebug (ensureSections defaultSettingsDoc) false) :=
  ⟨rfl, (c4_configure_idempotent SettingsFile.missing false _ rfl).1⟩

/-- Claim C5: with the debug option enabled, configure writes both
CxbxDebugMode in gui and KrnlDebugMode in core as 0x1 with the two log
paths under the fixed log directory, and the synthesized argv carries
the /dm and /df flags; with the option disabled, both flags are written
as 0x0 with blank log paths (never left stale) and the argv carries no
debug flags.  The wine runner executable path (an external
collaborator) is assumed not to be literally /dm or /df. -/
theorem c5_debug_flags (s : SettingsFile) (docT docF : SettingsDoc)
    (wineExe xbePath : String)
    (hT : configure_settings s true = Except.ok docT)
    (hF : configure_settings s false = Except.ok docF)
    (hw₁ : wineExe ≠ "/dm") (hw₂ : wineExe ≠ "/df") :
    sectGet docT "gui" "CxbxDebugMode" = some "0x1" ∧
    sectGet docT "gui" "CxbxDebugLogFile" = some GUI_DEBUG_LOG ∧
    sectGet docT "core" "KrnlDebugMode" = some "0x1" ∧
    sectGet docT "core" "KrnlDebugLogFile" = some KRNL_DEBUG_LOG ∧
    "/dm" ∈ buildArgv wineExe xbePath true ∧
    "/df" ∈ buildArgv wineExe xbePath true ∧
    sectGet docF "gui" "CxbxDebugMode" = some "0x0" ∧
    sectGet docF "gui" "CxbxDebugLogFile" = some "" ∧
    sectGet docF "core" "KrnlDebugMode" = some "0x0" ∧
    sectGet docF "core" "KrnlDebugLogFile" = some "" ∧
    "/dm" ∉ buildArgv wineExe xbePath false ∧
    "/df" ∉ buildArgv wineExe xbePath false := by
  have shape : ∀ (b : Bool) (doc : SettingsDoc),
      configure_settings s b = Except.ok doc →
      ∃ d₀, doc = applyDebug (ensureSections d₀) b := by
    intro b doc h
    cases s with
    | corrupt => simp [configure_settings] at h
    | missing => exact ⟨defaultSettingsDoc, by simpa [configure_settings] using h.symm⟩
    | parsed d => exact ⟨d, by simpa [configure_settings] using h.symm⟩
  obtain ⟨dT, hdT⟩ := shape true docT hT
  obtain ⟨dF, hdF⟩ := shape false docF hF
  subst hdT
  subst hdF
  have gT := applyDebug_sectGet_true (ensureSections dT)
    (hasSection_ensureSections_mem dT "gui" (by decide))
    (hasSection_ensureSections_mem dT "core" (by decide))
  have gF := applyDebug_sectGet_false (ensureSections dF)
    (hasSection_ensureSections_mem dF "gui" (by decide))
    (hasSection_ensureSections_mem dF "core" (by decide))
  refine ⟨gT.1, gT.2.1, gT.2.2.1, gT.2.2.2, ?_, ?_,
          gF.1, gF.2.1, gF.2.2.1, gF.2.2.2, ?_, ?_⟩
  · simp [buildArgv]
  · simp [buildArgv]
  · intro hmem
    unfold buildArgv at hmem
    rw [if_neg (by decide), List.append_nil] at hmem
    rcases List.mem_cons.mp hmem with h | hmem₂
    · exact hw₁ h.symm
    rcases List.mem_cons.mp hmem₂ with h | hmem₃
    · exact absurd h (by decide)
    rcases List.mem_cons.mp hmem₃ with h | hmem₄
    · exact absurd h (by decide)
    rcases List.mem_cons.mp hmem₄ with h | hmem₅
    · exact zcolon_ne_dm (toWinePath xbePath) h.symm
    · exact absurd hmem₅ (List.not_mem_nil _)
  · intro hmem
    unfold buildArgv at hmem
    rw [if_neg (by decide), List.append_nil] at hmem
    rcases List.mem_cons.mp hmem with h | hmem₂
    · exact hw₂ h.symm
    rcases List.mem_cons.mp hmem₂ with h | hmem₃
    · exact absurd h (by decide)
    rcases List.mem_cons.mp hmem₃ with h | hmem₄
    · exact absurd h (by decide)
    rcases List.mem_cons.mp hmem₄ with h | hmem₅
    · exact zcolon_ne_df (toWinePath xbePath) h.symm
    · exact absurd hmem₅ (List.not_mem_nil _)

/-- Witness for C5 at a concrete settings file and wine executable. -/
theorem c5_debug_flags_witness :
    ("/usr/bin/wine" : String) ≠ "/dm" ∧
    sectGet (applyDebug (ensureSections []) true) "gui" "CxbxDebugMode" = some "0x1" :=
  ⟨by decide,
   (c5_debug_flags (SettingsFile.parsed [])
      (applyDebug (ensureSections []) true) (applyDebug (ensureSections []) false)
      "/usr/bin/wine" "/roms/game.xbe" rfl rfl (by decide) (by decide)).1⟩

/-- Claim C6 counterexample: an image whose extracted tree holds no
file named default.xbe anywhere (its only entry lives below a directory
of that name) on which resolution nevertheless succeeds, because the
top-level `exists()` probe is satisfied by the directory, and the
extraction directory is not removed. -/
theorem c6_counterexample :
    ((extractionFS fsEmpty isoDirXbe romHalo).files.all
        (fun f => !(lowerStr (pathName f) == "default.xbe"))) = true ∧
    (resolveRom fsEmpty isoDirXbe romHalo).1
        = Except.ok ⟨topXbePath romHalo, some (getExtractDir romHalo)⟩ ∧
    existsFS (resolveRom fsEmpty isoDirXbe romHalo).2 (getExtractDir romHalo) = true :=
  ⟨rfl, rfl, rfl⟩

/-- Claim C6 (amended): for a packaged image whose extracted tree
holds no entry (file or directory) at the exact top-level path
default.xbe and no file whose name lowercases to default.xbe anywhere
recursively, resolution fails with PayloadNotFound and the extraction
directory has been removed in the state returned with the error. -/
theorem c6_payload_not_found_cleanup (fs : FS) (isoContents : String → List String)
    (rom : String)
    (hiso : lowerStr (pathSuffix rom) = ".iso")
    (htop : existsFS (extractionFS fs isoContents rom) (topXbePath rom) = false)
    (hrec : findXbeRec (extractionFS fs isoContents rom) (getExtractDir rom) = none) :
    resolveRom fs isoContents rom
      = (Except.error GenError.payloadNotFound,
         rmtreeFS (extractionFS fs isoContents rom) (getExtractDir rom)) ∧
    existsFS (resolveRom fs isoContents rom).2 (getExtractDir rom) = false := by
  have hmain : resolveRom fs isoContents rom
      = (Except.error GenError.payloadNotFound,
         rmtreeFS (extractionFS fs isoContents rom) (getExtractDir rom)) := by
    unfold resolveRom
    rw [if_pos hiso, if_neg (by simp [htop]), hrec]
  refine ⟨hmain, ?_⟩
  rw [hmain]
  exact existsFS_rmtree_self _ _

/-- Witness for C6 (amended) on an image holding a single unrelated
file. -/
theorem c6_payload_not_found_cleanup_witness :
    lowerStr (pathSuffix romHalo) = ".iso" ∧
    existsFS (resolveRom fsEmpty isoNoXbe romHalo).2 (getExtractDir romHalo) = false :=
  ⟨rfl, (c6_payload_not_found_cleanup fsEmpty isoNoXbe romHalo rfl rfl rfl).2⟩

/-- Claim C7: when the settings file exists but cannot be parsed,
configure surfaces a fatal configuration error and never rewrites the
file from defaults alone. -/
theorem c7_parse_error_fatal (debug : Bool) :
    configure_settings SettingsFile.corrupt debug = Except.error ConfigError.parseError ∧
    ∀ doc : SettingsDoc, configure_settings SettingsFile.corrupt debug ≠ Except.ok doc := by
  refine ⟨rfl, ?_⟩
  intro doc h
  simp [configure_settings] at h

/-- Claim C8 counterexample: a ROM path with the .xbe extension that
does not exist on disk; resolution fails with the missing-executable
error of lines 100-102 instead of returning the path. -/
theorem c8_counterexample :
    lowerStr (pathSuffix romXbe) = ".xbe" ∧
    (resolveRom fsEmpty isoNoXbe romXbe).1 = Except.error GenError.xbeNotFound ∧
    (resolveRom fsEmpty isoNoXbe romXbe).1
        ≠ Except.ok ⟨romXbe, none⟩ := by
  refine ⟨rfl, rfl, ?_⟩
  intro h
  exact Except.noConfusion h

/-- Claim C8 (amended): for every ROM path with the direct-executable
extension .xbe (case-insensitive) that exists on the filesystem,
resolution returns that path unchanged, with no transient resource and
the filesystem unchanged. -/
theorem c8_direct_xbe (fs : FS) (isoContents : String → List String) (rom : String)
    (hx : lowerStr (pathSuffix rom) = ".xbe")
    (he : existsFS fs rom = true) :
    resolveRom fs isoContents rom = (Except.ok ⟨rom, none⟩, fs) := by
  unfold resolveRom
  rw [if_neg (by rw [hx]; decide), if_pos hx, if_pos he]

/-- Witness for C8 (amended) on a filesystem holding the ROM. -/
theorem c8_direct_xbe_witness :
    existsFS ⟨[romXbe], []⟩ romXbe = true ∧
    resolveRom ⟨[romXbe], []⟩ isoNoXbe romXbe
      = (Except.ok ⟨romXbe, none⟩, ⟨[romXbe], []⟩) :=
  ⟨rfl, c8_direct_xbe ⟨[romXbe], []⟩ isoNoXbe romXbe rfl rfl⟩

/-- Claim C9: for every ROM path whose lowercased extension is neither
.iso nor .xbe, resolution fails with the unsupported-format error and
returns the filesystem unchanged, so no directory is created under the
scratch root. -/
theorem c9_unsupported_format (fs : FS) (isoContents : String → List String)
    (rom : String)
    (h₁ : lowerStr (pathSuffix rom) ≠ ".iso")
    (h₂ : lowerStr (pathSuffix rom) ≠ ".xbe") :
    resolveRom fs isoContents rom = (Except.error GenError.unsupportedFormat, fs) := by
  unfold resolveRom
  rw [if_neg h₁, if_neg h₂]

/-- Witness for C9 on a .bin ROM. -/
theorem c9_unsupported_format_witness :
    lowerStr (pathSuffix romBin) = ".bin" ∧
    resolveRom fsEmpty isoNoXbe romBin
      = (Except.error GenError.unsupportedFormat, fsEmpty) :=
  ⟨rfl, c9_unsupported_format fsEmpty isoNoXbe romBin (by decide) (by decide)⟩

/-- Claim C10: with a transient extraction directory present, wrap
writes its generated script to the single fixed path (overwriting any
previous content there, the path being independent of the ROM and of
the command) and returns bash invoking that same path with the original
environment; with no transient resource, the command is returned
unchanged. -/
theorem c10_wrapper_fixed_path (cmd : CommandM) (dir : String) :
    (wrapWithCleanup (some dir) cmd).scriptWrite
        = some (WRAPPER_SCRIPT_PATH, wrapperScriptContent cmd.array dir) ∧
    (wrapWithCleanup (some dir) cmd).command.array = ["/bin/bash", WRAPPER_SCRIPT_PATH] ∧
    (wrapWithCleanup (some dir) cmd).command.env = cmd.env ∧
    wrapWithCleanup none cmd = ⟨none, cmd⟩ :=
  ⟨rfl, rfl, rfl, rfl⟩
